import Mathlib

/-!
Verification of the kookaburra.health booking platform against its
specification.  The Python sources are shallowly embedded: pure helpers
become Lean functions, Django ORM state becomes explicit record/list
state threaded through the functions, and timestamps are modelled as
integers (seconds, UTC).
-/

set_option autoImplicit false

namespace Kookaburra

/-! ## Calendar arithmetic

Models Python `datetime.date` (proleptic Gregorian calendar).  A `Date`
is a year/month/day triple; `daysFromCivil`/`civilFromDays` convert to
and from a linear day count (days since 1970-01-01), following the
standard civil-calendar conversion algorithm.  All uses in this file
involve years 1900..9999, where every intermediate quantity below is
nonnegative, so Euclidean division agrees with truncating division.
-/

structure Date where
  year : Int
  month : Nat
  day : Nat
  deriving DecidableEq, Repr

def isLeapYear (y : Int) : Bool :=
  y % 4 == 0 && (y % 100 != 0 || y % 400 == 0)

def daysInMonth (y : Int) (m : Nat) : Nat :=
  if m = 2 then (if isLeapYear y then 29 else 28)
  else if m = 4 ∨ m = 6 ∨ m = 9 ∨ m = 11 then 30
  else 31

/-- Day count (days since 1970-01-01) of a civil date. -/
def daysFromCivil (y : Int) (m : Nat) (d : Nat) : Int :=
  let ys : Int := if m ≤ 2 then y - 1 else y
  let era : Int := (if 0 ≤ ys then ys else ys - 399) / 400
  let yoe : Int := ys - era * 400
  let mi : Int := Int.ofNat m
  let mp : Int := if 2 < mi then mi - 3 else mi + 9
  let doy : Int := (153 * mp + 2) / 5 + Int.ofNat d - 1
  let doe : Int := yoe * 365 + yoe / 4 - yoe / 100 + doy
  era * 146097 + doe - 719468

/-- Civil date of a day count (days since 1970-01-01). -/
def civilFromDays (z0 : Int) : Date :=
  let z : Int := z0 + 719468
  let era : Int := (if 0 ≤ z then z else z - 146096) / 146097
  let doe : Int := z - era * 146097
  let yoe : Int := (doe - doe / 1460 + doe / 36524 - doe / 146096) / 365
  let y : Int := yoe + era * 400
  let doy : Int := doe - (365 * yoe + yoe / 4 - yoe / 100)
  let mp : Int := (5 * doy + 2) / 153
  let d : Int := doy - (153 * mp + 2) / 5 + 1
  let m : Int := if mp < 10 then mp + 3 else mp - 9
  { year := if m ≤ 2 then y + 1 else y, month := m.toNat, day := d.toNat }

/-- Validity of a `datetime.date(y, m, d)` constructor call: Python raises
ValueError outside these bounds. -/
def validDate (y : Int) (m : Int) (d : Int) : Bool :=
  1 ≤ y && y ≤ 9999 && 1 ≤ m && m ≤ 12 && 1 ≤ d &&
    d ≤ Int.ofNat (daysInMonth y m.toNat)

/-! ## Python string/number helpers -/

/-- The whitespace characters stripped by the regular-expression class
backslash-s and by str.strip in the inputs this system sees (ASCII
whitespace plus the non-breaking space). -/
def isPySpace (c : Char) : Bool :=
  c = ' ' || c = Char.ofNat 9 || c = Char.ofNat 10 || c = Char.ofNat 13 ||
    c = Char.ofNat 11 || c = Char.ofNat 12 || c = Char.ofNat 160

def isPyDigit (c : Char) : Bool :=
  '0' ≤ c && c ≤ '9'

def pyStripChars (l : List Char) : List Char :=
  ((l.dropWhile isPySpace).reverse.dropWhile isPySpace).reverse

def pyStrip (s : String) : String :=
  String.mk (pyStripChars s.data)

def digitsToNat (l : List Char) : Nat :=
  l.foldl (fun n c => n * 10 + (c.toNat - 48)) 0

/-- Python int(str): strips whitespace, allows one optional sign, then
requires a nonempty run of digits (underscore separators never occur in
this system's inputs). -/
def pyIntOfStr? (s : String) : Option Int :=
  let t := pyStripChars s.data
  let (sgn, body) : Int × List Char :=
    match t with
    | '-' :: rest => (-1, rest)
    | '+' :: rest => (1, rest)
    | _ => (1, t)
  if body ≠ [] ∧ body.all isPyDigit then
    some (sgn * Int.ofNat (digitsToNat body))
  else
    .none

def natToDigits (pad : Nat) (n : Nat) : String :=
  let raw := toString n
  let need := pad - raw.length
  String.mk (List.replicate need '0') ++ raw

/-- Rendering of a datetime.date by str: ISO YYYY-MM-DD (years in this system are
always in 1..9999). -/
def dateToStr (d : Date) : String :=
  natToDigits 4 d.year.toNat ++ "-" ++ natToDigits 2 d.month ++ "-" ++
    natToDigits 2 d.day

/-! ## Fixed-point decimals

Models Python `Decimal` for the plain sign/digits/point strings produced
by `parse_decimal` (no exponents, no special values: every other
character has been stripped before `Decimal` is called). -/

structure Dec where
  mant : Int
  scale : Nat
  deriving DecidableEq, Repr

/-- Numeric value comparison of two decimals (Python Decimal equality is
numeric, not representational). -/
def Dec.numEq (a b : Dec) : Bool :=
  a.mant * (10 : Int) ^ b.scale == b.mant * (10 : Int) ^ a.scale

/-- Rendering of a Decimal by str as produced by this pipeline (plain fixed-point
rendering; the scientific-notation cases of Decimal never arise from
`parse_decimal`). -/
def decToStr (d : Dec) : String :=
  let sign := if d.mant < 0 then "-" else ""
  let digits := natToDigits (d.scale + 1) d.mant.natAbs
  if d.scale = 0 then
    sign ++ digits
  else
    let n := digits.length
    sign ++ (digits.take (n - d.scale)) ++ "." ++ (digits.drop (n - d.scale))

/-! ## GoogleSheetsService.parse_decimal -/

/-- First cleaning pass of parse_decimal: remove dollar signs, commas and
whitespace. -/
def stripMoneyChars (l : List Char) : List Char :=
  l.filter (fun c => ¬ (c = '$' ∨ c = ',' ∨ isPySpace c = true))

/-- Final cleaning pass of parse_decimal: keep only digits, the decimal
point, and the minus sign. -/
def stripNonNumeric (l : List Char) : List Char :=
  l.filter (fun c => isPyDigit c = true ∨ c = '.' ∨ c = '-')

/-- Python Decimal(s) on a string over the characters digits/point/minus
(all that survive `stripNonNumeric`): one optional leading minus, at most
one point, at least one digit, nothing else. -/
def decOfCleanChars (l : List Char) : Option Dec :=
  let sgn : Int := if l.head? = some '-' then -1 else 1
  let body := if l.head? = some '-' then l.drop 1 else l
  let dots := (body.filter (fun c => c = '.')).length
  let digs := (body.filter (fun c => isPyDigit c)).length
  if body.all (fun c => isPyDigit c || c = '.') ∧ dots ≤ 1 ∧ 1 ≤ digs then
    let intpart := body.takeWhile (fun c => c ≠ '.')
    let frac := (body.dropWhile (fun c => c ≠ '.')).drop 1
    some { mant := sgn * Int.ofNat (digitsToNat (intpart ++ frac)),
           scale := frac.length }
  else
    .none

/-- Models GoogleSheetsService.parse_decimal: empty or literal error marker give
an absent value; strip currency characters; a fully parenthesised value
gets a minus sign prefixed to the inner text; strip remaining non-numeric
characters; parse as Decimal, any failure giving an absent value. -/
def parse_decimal (value : String) : Option Dec :=
  if value = "" ∨ value = "#ERROR!" then .none
  else
    let cleaned := stripMoneyChars value.data
    let cleaned :=
      if cleaned.head? = some '(' ∧ cleaned.getLast? = some ')' then
        '-' :: (cleaned.drop 1).dropLast
      else cleaned
    decOfCleanChars (stripNonNumeric cleaned)

/-! ## GoogleSheetsService.parse_date -/

/-- A raw spreadsheet cell as seen by parse_date: a string or a number.
Numbers are modelled as integers; the serial-number branch applies
int(value) so fractional parts never influence the result beyond
truncation. -/
inductive CellVal where
  | s (v : String)
  | n (v : Int)
  deriving DecidableEq, Repr

def cellTruthy : CellVal → Bool
  | .s v => v ≠ ""
  | .n v => v ≠ 0

/-- Stringification (str) of a cell for the text-parsing path. -/
def cellStr : CellVal → String
  | .s v => v
  | .n v => toString v

/-- The string branch of parse_date.  `dutil` stands for the third-party
day-first general date parser (dateutil), which is outside this
repository; the branch structure (slash-separated three-part dates parsed
as day/month/year via int(), everything else handed to `dutil`, failures
giving an absent value) is from the source. -/
def parseDateStr (dutil : String → Option Date) (vs : String) : Option Date :=
  let parts := vs.splitOn "/"
  if vs.data.contains '/' ∧ parts.length = 3 then
    match parts with
    | [d, m, y] =>
      match pyIntOfStr? y, pyIntOfStr? m, pyIntOfStr? d with
      | some yi, some mi, some di =>
        if validDate yi mi di then
          some { year := yi, month := mi.toNat, day := di.toNat }
        else .none
      | _, _, _ => .none
    | _ => .none
  else
    dutil vs

/-- Models GoogleSheetsService.parse_date: falsy input or the literal error
marker give an absent value; a number above 10000 is a provider
date-serial (epoch 1900-01-01, minus two days for the provider leap-year
bug); otherwise the stripped text is parsed by the string branch. -/
def parse_date (dutil : String → Option Date) (value : CellVal) : Option Date :=
  if cellTruthy value = false ∨ value = .s "#ERROR!" then .none
  else
    match value with
    | .n v =>
      if 10000 < v then
        some (civilFromDays (daysFromCivil 1900 1 1 + (v - 2)))
      else
        parseDateStr dutil (pyStrip (cellStr (.n v)))
    | .s v => parseDateStr dutil (pyStrip v)

/-! ## Normalized values and booking rows

A normalized cell value as produced by `GoogleSheetsService.normalize_value`
and stored on a Booking: Python None, str, Decimal, date, bool, or (for
the merge metadata) a datetime, here an integer count of seconds (UTC).
-/

inductive Val where
  | none
  | str (v : String)
  | num (v : Dec)
  | date (v : Date)
  | bool (v : Bool)
  | dt (v : Int)
  deriving DecidableEq, Repr

/-- Python str() of a normalized value.  datetime rendering is a
deterministic stand-in; no datetime value ever reaches a str() call in
the verified paths. -/
def pyStr : Val → String
  | .none => "None"
  | .str v => v
  | .num v => decToStr v
  | .date v => dateToStr v
  | .bool v => if v then "True" else "False"
  | .dt v => "datetime@" ++ toString v

/-- Python == on normalized values.  Decimal equality is numeric; values
of distinct kinds compare unequal (the cross-kind numeric equalities
Python adds, such as bool against Decimal, never arise because the two
sides of every comparison come from the same column). -/
def pyEq : Val → Val → Bool
  | .none, .none => true
  | .str a, .str b => a = b
  | .num a, .num b => a.numEq b
  | .date a, .date b => a = b
  | .bool a, .bool b => a = b
  | .dt a, .dt b => a = b
  | _, _ => false

/-- A normalized booking row (a Python dict): association list with the
insertion order of `normalize_row_data`; keys are unique. -/
abbrev BookingData := List (String × Val)

def dget (d : BookingData) (k : String) : Option Val :=
  (d.find? (fun p => p.1 = k)).map (fun p => p.2)

def dhasKey (d : BookingData) (k : String) : Bool :=
  (d.find? (fun p => p.1 = k)).isSome

/-! ## The Booking data model (api/models.py) -/

/-- The data columns of the Booking model, in declaration order. -/
def bookingDataFieldNames : List String :=
  ["booking_number", "booking_date", "arrive_date", "depart_date",
   "original_total", "deposit_required", "status", "file_as", "first_name",
   "surname", "company", "region", "portal", "room_number", "room_type",
   "received_amount", "deposit_due", "deposit_by_date", "total_amount",
   "balance", "agent", "agent_ref", "email", "mobile", "car_rego",
   "guest_request", "enquiry_status", "primary_source", "black_list",
   "rate", "suburb", "post_code", "state", "room_status", "dual_key",
   "pre_auth_amount", "total_pre_auths"]

def bookingDateFieldNames : List String :=
  ["booking_date", "arrive_date", "depart_date", "deposit_by_date"]

def bookingDecimalFieldNames : List String :=
  ["original_total", "deposit_required", "received_amount", "deposit_due",
   "total_amount", "balance", "pre_auth_amount", "total_pre_auths"]

/-- The value a Booking column takes when object creation does not name
it: False for the boolean column, absent for nullable date and decimal
columns, the empty string for character columns. -/
def bookingFieldDefault (f : String) : Val :=
  if f = "black_list" then .bool false
  else if f ∈ bookingDateFieldNames then .none
  else if f ∈ bookingDecimalFieldNames then .none
  else .str ""

/-- A stored Booking row: the data columns as an association list, plus
the merge-metadata columns, which the source reads and writes by name. -/
structure StoredBooking where
  attrs : List (String × Val)
  source_file_id : String
  source_file_time : Int
  source_row_hash : String
  ingestion_run : Nat
  deriving DecidableEq, Repr

/-- Models getattr on a Booking instance: the stored column value, or the model
default for a column the row was created without. -/
def getattrB (b : StoredBooking) (f : String) : Val :=
  match b.attrs.find? (fun p => p.1 = f) with
  | some p => p.2
  | _ => bookingFieldDefault f

/-- Models setattr on a Booking instance. -/
def setAttrB (b : StoredBooking) (f : String) (v : Val) : StoredBooking :=
  { b with attrs := (f, v) :: b.attrs.filter (fun p => p.1 ≠ f) }

/-- The booking_number column as text (the natural key; the pipeline
always stores it as a string). -/
def bookingNumberOf (b : StoredBooking) : String :=
  pyStr (getattrB b "booking_number")

structure ConflictRow where
  booking_number : String
  field_name : String
  existing_value : String
  incoming_value : String
  source_file_id : String
  ingestion_run : Nat
  deriving DecidableEq, Repr

/-- The identifying data of one IngestionRun as used by the per-row merge. -/
structure RunInfo where
  id : Nat
  file_id : String
  filename : String
  data_time : Int
  deriving DecidableEq, Repr

/-- The database state the merge logic reads and writes: the Booking
table and the append-only BookingConflict table. -/
structure MergeState where
  bookings : List StoredBooking
  conflicts : List ConflictRow
  deriving DecidableEq, Repr

/-- Models the Booking.objects.get lookup by booking_number; the column is unique, so at
most one row matches. -/
def lookupBooking (bs : List StoredBooking) (bn : String) : Option StoredBooking :=
  bs.find? (fun b => bookingNumberOf b = bn)

/-! ## BookingIngestionService.process_booking_row -/

/-- The IMMUTABLE_FIELDS set of BookingIngestionService (a Python set; iteration
order is unspecified there and irrelevant to every property below). -/
def immutableFields : List String :=
  ["booking_number", "arrive_date", "depart_date", "original_total",
   "deposit_required"]

/-- Models calculate_row_hash: metadata keys dropped, remaining entries
serialized with sorted keys and digested.  The digest is a deterministic
serialization stand-in (the SHA-256 permutation itself is not modelled);
no verified property inspects hash contents. -/
def calculateRowHash (data : BookingData) : String :=
  let clean := data.filter (fun p => ¬ p.1.startsWith "_")
  let sorted := clean.insertionSort (fun a b => a.1 ≤ b.1)
  "sha256:" ++ sorted.foldl (fun acc p => acc ++ p.1 ++ "=" ++ pyStr p.2 ++ ";") ""

/-- The BookingConflict row recorded for one immutable field, when the
incoming row carries a non-null value that disagrees (as text) with a
non-null stored value. -/
def conflictGen (existing : StoredBooking) (data : BookingData) (run : RunInfo)
    (bn : String) (f : String) : Option ConflictRow :=
  match dget data f with
  | some v =>
    if v ≠ Val.none ∧ getattrB existing f ≠ Val.none ∧
        pyStr (getattrB existing f) ≠ pyStr v then
      some { booking_number := bn, field_name := f,
             existing_value := pyStr (getattrB existing f),
             incoming_value := pyStr v,
             source_file_id := run.file_id, ingestion_run := run.id }
    else .none
  | _ => .none

def conflictRowsFor (existing : StoredBooking) (data : BookingData)
    (run : RunInfo) (bn : String) : List ConflictRow :=
  immutableFields.filterMap (conflictGen existing data run bn)

/-- The mutable-field key set: all row keys minus the immutable set minus
the two metadata keys (the Python set difference; row keys are unique, so
the list below enumerates the same set). -/
def mutableKeys (data : BookingData) : List String :=
  (data.map (fun p => p.1)).filter (fun k =>
    ¬ k ∈ immutableFields ∧ ¬ (k = "_row_index" ∨ k = "_raw_data"))

/-- Models hasattr on a Booking instance for the names this pipeline passes:
membership among the data columns (merge-metadata columns are refreshed
explicitly afterwards and never appear among row keys). -/
def bookingHasAttr (f : String) : Bool :=
  f ∈ bookingDataFieldNames

/-- One step of the mutable-attribute update loop: overwrite the field
when it is present, is a model attribute, and its stored value differs
from the incoming one; count the overwrite. -/
def updStep (data : BookingData) (bn : StoredBooking × Nat) (f : String) :
    StoredBooking × Nat :=
  match dget data f with
  | some v =>
    if bookingHasAttr f ∧ ¬ pyEq (getattrB bn.1 f) v = true then
      (setAttrB bn.1 f v, bn.2 + 1)
    else bn
  | _ => bn

/-- The mutable-attribute update loop of process_booking_row. -/
def applyMutableUpdates (existing : StoredBooking) (data : BookingData) :
    StoredBooking × Nat :=
  (mutableKeys data).foldl (updStep data) (existing, 0)

/-- Models Booking.objects.create from the cleaned row plus merge metadata:
every data column takes the row value when its key is present, else the
model default. -/
def createBooking (clean : BookingData) (run : RunInfo)
    (rowHash : String) : StoredBooking :=
  { attrs := bookingDataFieldNames.map (fun f =>
      (f, match dget clean f with | some v => v | _ => bookingFieldDefault f)),
    source_file_id := run.file_id,
    source_file_time := run.data_time,
    source_row_hash := rowHash,
    ingestion_run := run.id }

/-- The merge key of a row: its booking_number value through str, stripped.
A row lacking the key would raise a KeyError in the source; normalized
rows always carry it. -/
def rowBookingNumber (data : BookingData) : String :=
  pyStrip (pyStr ((dget data "booking_number").getD Val.none))

/-- Models BookingIngestionService.process_booking_row: the core merge decision.
Returns the new database state, the action tag, and the detail string.
The source compares booking_data.get with default run.data_time against
the stored source_file_time; normalized rows never carry a
source_file_time key. -/
def processBookingRow (st : MergeState) (data : BookingData) (run : RunInfo) :
    MergeState × String × String :=
  let bn := rowBookingNumber data
  match lookupBooking st.bookings bn with
  | some existing =>
    let incomingTime : Int :=
      match dget data "source_file_time" with
      | some (.dt t) => t
      | _ => run.data_time
    if incomingTime ≤ existing.source_file_time then
      (st, "ignored", "Older data ignored")
    else
      let newConflicts := conflictRowsFor existing data run bn
      let upd := applyMutableUpdates existing data
      let updated : StoredBooking :=
        { upd.1 with
          source_file_id := run.file_id,
          source_file_time := run.data_time,
          source_row_hash := calculateRowHash data,
          ingestion_run := run.id }
      let st2 : MergeState :=
        { bookings := st.bookings.map (fun b =>
            if bookingNumberOf b = bn then updated else b),
          conflicts := st.conflicts ++ newConflicts }
      let action := if newConflicts ≠ [] then "conflict" else "updated"
      (st2, action, "Updated " ++ toString upd.2 ++ " fields")
  | _ =>
    let clean := data.filter (fun p => ¬ p.1.startsWith "_")
    let newB := createBooking clean run (calculateRowHash data)
    ({ st with bookings := st.bookings ++ [newB] }, "inserted",
      "New booking created: " ++ bookingNumberOf newB)

/-- The key set of a row produced by normalize_row_data: the 35 mapped
columns, the back-filled original_total, and the two metadata keys. -/
def normalizedRowKeys : List String :=
  ["booking_number", "status", "file_as", "first_name", "surname",
   "company", "region", "portal", "arrive_date", "depart_date",
   "room_number", "room_type", "deposit_required", "received_amount",
   "deposit_due", "deposit_by_date", "total_amount", "balance", "agent",
   "agent_ref", "email", "mobile", "car_rego", "guest_request",
   "enquiry_status", "primary_source", "black_list", "rate", "suburb",
   "post_code", "state", "room_status", "dual_key", "pre_auth_amount",
   "total_pre_auths", "original_total", "_row_index", "_raw_data"]

/-- The immutable-fact columns as the specification lists them. -/
def specImmutableFields : List String :=
  ["booking_date", "arrive_date", "depart_date", "original_total",
   "deposit_required"]

/-! ## BookingIngestionService.ingest_file -/

structure RunCounters where
  rows_processed : Nat
  rows_inserted : Nat
  rows_updated : Nat
  rows_ignored : Nat
  rows_quarantined : Nat
  conflicts_detected : Nat
  deriving DecidableEq, Repr

structure RawRowRec where
  file_id : String
  row_index : Int
  row_hash : String
  ingestion_run : Nat
  deriving DecidableEq, Repr

/-- One QuarantinedRow (the raw cell payload itself is audit-only and not
modelled; no verified property reads it). -/
structure QuarantinedRowRec where
  file_id : String
  row_index : Int
  error_message : String
  ingestion_run : Nat
  deriving DecidableEq, Repr

structure ProcessedFileRec where
  file_id : String
  folder_id : String
  filename : String
  ingestion_run : Nat
  deriving DecidableEq, Repr

/-- The database tables the per-file pipeline touches. -/
structure PipelineDB where
  merge : MergeState
  rawRows : List RawRowRec
  quarantined : List QuarantinedRowRec
  processed : List ProcessedFileRec
  deriving DecidableEq, Repr

/-- One accepted extraction row entering the per-row loop, together with
an environment oracle: a row whose handling raises (a database or
constraint failure) carries the exception text, and the loop quarantines
it instead of counting an action.  The raise is modelled at the merge
step, after the RawRow insert, matching the note that a row can leave
both a RawRow and a QuarantinedRow. -/
structure RowInput where
  data : BookingData
  fault : Option String
  deriving DecidableEq, Repr

/-- One row rejected by extraction (1-based row number and message). -/
structure ExtractionErrorRec where
  row : Int
  error : String
  deriving DecidableEq, Repr

/-- The result of extract_bookings_from_sheet as consumed by ingest_file. -/
structure ExtractionResult where
  bookings : List RowInput
  errors : List ExtractionErrorRec
  sheet_name : String
  deriving DecidableEq, Repr

/-- The audit record of one ingestion run as finalized by ingest_file. -/
structure RunRecord where
  id : Nat
  file_id : String
  filename : String
  data_time : Int
  status : String
  completed_at : Option Int
  sheet_names : List String
  counters : RunCounters
  deriving DecidableEq, Repr

/-- Reads the _row_index metadata key via booking_data.get, default 0. -/
def rowIdx (data : BookingData) : Int :=
  match dget data "_row_index" with
  | some (.num d) => d.mant
  | _ => 0

/-- Counter update for one merge action; a conflict outcome increments
both conflicts_detected and rows_updated. -/
def bumpCounters (c : RunCounters) (action : String) : RunCounters :=
  if action = "inserted" then { c with rows_inserted := c.rows_inserted + 1 }
  else if action = "updated" then { c with rows_updated := c.rows_updated + 1 }
  else if action = "ignored" then { c with rows_ignored := c.rows_ignored + 1 }
  else if action = "conflict" then
    { c with conflicts_detected := c.conflicts_detected + 1,
             rows_updated := c.rows_updated + 1 }
  else c

/-- The per-row loop of ingest_file: persist a RawRow, then merge, then
count — or quarantine the row when its handling raises.  Also returns
the list of per-row outcomes ("quarantined" for a fault) as a
specification trace. -/
def rowsLoop (run : RunInfo) : List RowInput → MergeState → List RawRowRec →
    List QuarantinedRowRec → RunCounters →
    MergeState × List RawRowRec × List QuarantinedRowRec × RunCounters × List String
  | [], m, r, q, c => (m, r, q, c, [])
  | row :: rest, m, r, q, c =>
    let rawRow : RawRowRec :=
      { file_id := run.file_id, row_index := rowIdx row.data,
        row_hash := calculateRowHash row.data, ingestion_run := run.id }
    match row.fault with
    | some msg =>
      let quarRow : QuarantinedRowRec :=
        { file_id := run.file_id, row_index := rowIdx row.data,
          error_message := msg, ingestion_run := run.id }
      let rec1 := rowsLoop run rest m (r ++ [rawRow]) (q ++ [quarRow])
        { c with rows_quarantined := c.rows_quarantined + 1 }
      (rec1.1, rec1.2.1, rec1.2.2.1, rec1.2.2.2.1, "quarantined" :: rec1.2.2.2.2)
    | _ =>
      let res := processBookingRow m row.data run
      let rec1 := rowsLoop run rest res.1 (r ++ [rawRow]) q (bumpCounters c res.2.1)
      (rec1.1, rec1.2.1, rec1.2.2.1, rec1.2.2.2.1, res.2.1 :: rec1.2.2.2.2)

/-- Models BookingIngestionService.ingest_file on the path with no escaping
exception: create the run, record sheet name and provisional
rows_processed, run the per-row loop, quarantine each extraction error,
mark the file processed, finalize status and completion time.  Returns
the new database, the finalized run record, and the per-row outcome
trace. -/
def ingest_file (db : PipelineDB) (folderId : String) (run : RunInfo)
    (ex : ExtractionResult) (now : Int) :
    PipelineDB × RunRecord × List String :=
  let c0 : RunCounters :=
    { rows_processed := ex.bookings.length + ex.errors.length,
      rows_inserted := 0, rows_updated := 0, rows_ignored := 0,
      rows_quarantined := 0, conflicts_detected := 0 }
  let lp := rowsLoop run ex.bookings db.merge db.rawRows db.quarantined c0
  let quarsAfterErrors := lp.2.2.1 ++ ex.errors.map (fun e =>
    { file_id := run.file_id, row_index := e.row, error_message := e.error,
      ingestion_run := run.id })
  let c2 : RunCounters :=
    { lp.2.2.2.1 with
      rows_quarantined := lp.2.2.2.1.rows_quarantined + ex.errors.length }
  let db2 : PipelineDB :=
    { merge := lp.1, rawRows := lp.2.1, quarantined := quarsAfterErrors,
      processed := db.processed ++
        [{ file_id := run.file_id, folder_id := folderId,
           filename := run.filename, ingestion_run := run.id }] }
  let runRec : RunRecord :=
    { id := run.id, file_id := run.file_id, filename := run.filename,
      data_time := run.data_time,
      status := if c2.rows_quarantined = 0 then "completed" else "partial",
      completed_at := some now,
      sheet_names := [ex.sheet_name],
      counters := c2 }
  (db2, runRec, lp.2.2.2.2)

/-! ## File discovery (BookingIngestionService.discover_new_files)

The filename date patterns of GoogleSheetsService.extract_file_date are
embedded as literal character shapes; searching tries every start
position left to right, like re.search.
-/

inductive MChar where
  | dig
  | lit (c : Char)
  deriving DecidableEq, Repr

def mcharMatches : MChar → Char → Bool
  | .dig, c => isPyDigit c
  | .lit l, c => l = c

/-- Match a pattern at the start of the text, returning the matched
characters. -/
def matchPrefixPat : List MChar → List Char → Option (List Char)
  | [], _ => some []
  | _ :: _, [] => .none
  | p :: ps, c :: cs =>
    if mcharMatches p c then
      match matchPrefixPat ps cs with
      | some m => some (c :: m)
      | _ => .none
    else .none

/-- Leftmost match of the pattern in the text, as re.search finds it. -/
def searchPat (p : List MChar) : List Char → Option (List Char)
  | [] => matchPrefixPat p []
  | s@(_ :: rest) =>
    match matchPrefixPat p s with
    | some m => some m
    | _ => searchPat p rest

/-- The four filename date patterns, in priority order:
YYYY-MM-DD, DD-MM-YYYY, DD/MM/YYYY, YYYY/MM/DD. -/
def fileDatePatterns : List (List MChar) :=
  [[.dig, .dig, .dig, .dig, .lit '-', .dig, .dig, .lit '-', .dig, .dig],
   [.dig, .dig, .lit '-', .dig, .dig, .lit '-', .dig, .dig, .dig, .dig],
   [.dig, .dig, .lit '/', .dig, .dig, .lit '/', .dig, .dig, .dig, .dig],
   [.dig, .dig, .dig, .dig, .lit '/', .dig, .dig, .lit '/', .dig, .dig]]

/-- Models GoogleSheetsService.extract_file_date: for each pattern in priority
order, take the leftmost match and hand it to the third-party day-first
date parser `dutil`; a parse failure moves on to the next pattern; no
usable match gives an absent value. -/
def extract_file_date (dutil : String → Option Date) (filename : String) :
    Option Date :=
  let rec go : List (List MChar) → Option Date
    | [] => .none
    | p :: rest =>
      match searchPat p filename.data with
      | some m =>
        match dutil (String.mk m) with
        | some d => some d
        | _ => go rest
      | _ => go rest
  go fileDatePatterns

/-- Models BookingIngestionService.extract_data_time_from_file: a filename date
is combined with the time-of-day of the file creation timestamp (both
UTC); otherwise the creation timestamp is used verbatim.  Timestamps are
seconds, so the time of day is the residue modulo 86400. -/
def extract_data_time_from_file (dutil : String → Option Date)
    (filename : String) (createdTime : Int) : Int :=
  match extract_file_date dutil filename with
  | some d => daysFromCivil d.year d.month d.day * 86400 + createdTime % 86400
  | _ => createdTime

/-- A file as listed by the cloud provider. -/
structure DriveFile where
  id : String
  name : String
  parent : String
  mimeType : String
  trashed : Bool
  createdTime : Int
  modifiedTime : Int
  deriving DecidableEq, Repr

/-- Modelled from the spec: the provider executes the discovery query —
children of the folder whose MIME type is the native spreadsheet type,
non-trashed, ordered by creation time ascending.  The provider itself is
outside this repository; this is the files.list contract the service
relies on.  (Provider order among equal creation times is unspecified;
a stable sort is one admissible order.) -/
def driveSheetChildren (allFiles : List DriveFile) (folderId : String) :
    List DriveFile :=
  (allFiles.filter (fun f => f.parent = folderId ∧
      f.mimeType = "application/vnd.google-apps.spreadsheet" ∧
      f.trashed = false)).insertionSort
    (fun a b => a.createdTime ≤ b.createdTime)

/-- The enriched metadata discover_new_files builds for one new file. -/
structure FileInfo where
  file_id : String
  filename : String
  created_time : Int
  modified_time : Int
  data_time : Int
  deriving DecidableEq, Repr

def toFileInfo (dutil : String → Option Date) (f : DriveFile) : FileInfo :=
  { file_id := f.id, filename := f.name, created_time := f.createdTime,
    modified_time := f.modifiedTime,
    data_time := extract_data_time_from_file dutil f.name f.createdTime }

/-- Models BookingIngestionService.discover_new_files: query the provider for
the folder's spreadsheet children, drop files already recorded in
ProcessedFile for the folder (`processedIds`), enrich with data_time,
and re-sort ascending by data_time (the Python sort is stable;
insertionSort on a total preorder is the same stable sort). -/
def discover_new_files (dutil : String → Option Date)
    (allFiles : List DriveFile) (folderId : String)
    (processedIds : List String) : List FileInfo :=
  let files := driveSheetChildren allFiles folderId
  ((files.filter (fun f => ¬ f.id ∈ processedIds)).map (toFileInfo dutil)).insertionSort
    (fun a b => a.data_time ≤ b.data_time)

/-- Models BookingIngestionService.process_folder, reduced to what the ordering
claim needs: each discovered file is ingested in list order, threading
the database and collecting the per-file run records.  `extractionOf`
is the sheet-contents oracle; run ids are assigned sequentially. -/
def process_folder (dutil : String → Option Date) (db : PipelineDB)
    (folderId : String) (allFiles : List DriveFile)
    (processedIds : List String)
    (extractionOf : String → ExtractionResult) (now : Int) :
    PipelineDB × List RunRecord :=
  let files := discover_new_files dutil allFiles folderId processedIds
  files.foldl (fun acc fi =>
    let run : RunInfo :=
      { id := acc.2.length, file_id := fi.file_id, filename := fi.filename,
        data_time := fi.data_time }
    let o := ingest_file acc.1 folderId run (extractionOf fi.file_id) now
    (o.1, acc.2 ++ [o.2.1])) (db, [])

/-! ## Django field-lookup resolution (apps/dashboard/views.py)

A queryset filter keyword resolves only when its first
double-underscore segment names a field of the model; otherwise the
ORM raises a FieldError naming that segment at queryset-construction
time.  The model graph below lists every field of the four models the
dashboard touches, with the target model of each relation.
-/

inductive DjangoModel where
  | booking
  | ingestionRun
  | gdFolder
  | userModel
  deriving DecidableEq, Repr

/-- Field name and, for a relation, the related model (api/models.py and
apps/users/models.py). -/
def modelFields : DjangoModel → List (String × Option DjangoModel)
  | .booking =>
    bookingDataFieldNames.map (fun f => (f, Option.none)) ++
      [("id", Option.none), ("source_file_id", Option.none),
       ("source_file_time", Option.none), ("source_row_hash", Option.none),
       ("ingestion_run", some .ingestionRun), ("created_at", Option.none),
       ("updated_at", Option.none)]
  | .ingestionRun =>
    [("id", Option.none), ("folder", some .gdFolder), ("file_id", Option.none),
     ("filename", Option.none), ("file_created_time", Option.none),
     ("file_modified_time", Option.none), ("data_time", Option.none),
     ("status", Option.none), ("started_at", Option.none),
     ("completed_at", Option.none), ("sheet_names", Option.none),
     ("rows_processed", Option.none), ("rows_inserted", Option.none),
     ("rows_updated", Option.none), ("rows_ignored", Option.none),
     ("rows_quarantined", Option.none), ("conflicts_detected", Option.none),
     ("error_message", Option.none)]
  | .gdFolder =>
    [("id", Option.none), ("folder_id", Option.none),
     ("folder_name", Option.none), ("owner_email", Option.none),
     ("user", some .userModel), ("created_at", Option.none),
     ("updated_at", Option.none), ("last_validated", Option.none),
     ("is_active", Option.none)]
  | .userModel =>
    [("id", Option.none), ("username", Option.none), ("email", Option.none),
     ("password", Option.none), ("first_name", Option.none),
     ("last_name", Option.none), ("phone", Option.none),
     ("is_staff", Option.none), ("is_superuser", Option.none),
     ("is_active", Option.none), ("date_joined", Option.none),
     ("last_login", Option.none), ("updated_at", Option.none)]

def fieldNamesOf (m : DjangoModel) : List String :=
  (modelFields m).map (fun p => p.1)

/-- The characters of a lookup keyword before its first double
underscore (its first segment). -/
def headSegAux : List Char → List Char
  | [] => []
  | '_' :: '_' :: _ => []
  | c :: rest => c :: headSegAux rest

def headSegment (k : String) : String :=
  String.mk (headSegAux k.data)

def resolvesOn (m : DjangoModel) (k : String) : Bool :=
  (fieldNamesOf m).contains (headSegment k)

/-- Queryset construction with the given filter keywords: the FieldError
names the first unresolvable keyword's head segment. -/
def filterOrFieldError (m : DjangoModel) (ks : List String) :
    Except String Unit :=
  match ks.find? (fun k => ¬ resolvesOn m k) with
  | some k => .error (headSegment k)
  | _ => .ok ()

/-- Walking a relation path through the model graph (the last segment may
be a plain field). -/
def pathResolves (m : DjangoModel) : List String → Bool
  | [] => true
  | f :: rest =>
    match (modelFields m).find? (fun p => p.1 = f) with
    | some p =>
      match p.2 with
      | some m2 => pathResolves m2 rest
      | _ => rest = []
    | _ => false

/-- The base queryset filter of folder_bookings (and of the statuses
listing): Booking filtered on user and ingestion_run__folder. -/
def folderBookingsBaseKwargs : List String :=
  ["user", "ingestion_run__folder"]

/-- The eligibility filter of guest_extra_night_workflow. -/
def guestEligibilityKwargs : List String :=
  ["user", "ingestion_run__folder", "arrive_date__isnull",
   "depart_date__isnull", "depart_date__week_day", "arrive_date__gte",
   "status__in"]

def folderBookingsQueryset : Except String Unit :=
  filterOrFieldError .booking folderBookingsBaseKwargs

def guestEligibilityQueryset : Except String Unit :=
  filterOrFieldError .booking guestEligibilityKwargs

/-! ## CSV export (apps/dashboard/views.py export_bookings_csv) -/

/-- The search/status/date query parameters shared by the bookings page
and its CSV export. -/
structure BookingFilterParams where
  search : String
  booking_status : String
  import_status : String
  date_from : String
  date_to : String
  deriving DecidableEq, Repr

def searchKwargs : List String :=
  ["booking_number__icontains", "first_name__icontains",
   "surname__icontains", "company__icontains", "email__icontains"]

/-- Python datetime.strptime with the YYYY-MM-DD format, as a validity
check only (the parsed value feeds an arrive_date range filter). -/
def parseYmd (s : String) : Option Date :=
  match s.splitOn "-" with
  | [y, m, d] =>
    if y.data.all isPyDigit ∧ y.length = 4 ∧ m.data ≠ [] ∧
        m.data.all isPyDigit ∧ m.length ≤ 2 ∧ d.data ≠ [] ∧
        d.data.all isPyDigit ∧ d.length ≤ 2 ∧
        validDate (digitsToNat y.data) (digitsToNat m.data) (digitsToNat d.data)
      then some { year := digitsToNat y.data, month := digitsToNat m.data,
                  day := digitsToNat d.data }
      else .none
  | _ => .none

/-- The literal CSV header row written by export_bookings_csv. -/
def csvHeader : List String :=
  ["Booking Number", "Status", "Guest Name", "Company", "Email", "Mobile",
   "Arrive Date", "Depart Date", "Room Number", "Room Type",
   "Total Amount", "Balance", "Deposit Required", "Region", "Agent",
   "Import Date", "Import Status", "Source File"]

/-- Models export_bookings_csv: build the base queryset (user and folder), apply
the optional search/status/date filters, then emit the header row
followed by the data rows.  `renderedRows` stands for the rendered data
rows of the filtered queryset; rendering is never reached because the
base filter names a nonexistent Booking field and queryset construction
raises first. -/
def export_bookings_csv (params : BookingFilterParams)
    (renderedRows : List (List String)) :
    Except String (List (List String)) := do
  let _ ← filterOrFieldError .booking folderBookingsBaseKwargs
  let _ ← if params.search ≠ "" then filterOrFieldError .booking searchKwargs
    else pure ()
  let _ ← if params.booking_status ≠ "" then
      filterOrFieldError .booking ["status"]
    else pure ()
  let _ ← if params.import_status ≠ "" then
      filterOrFieldError .booking ["ingestion_run__status"]
    else pure ()
  let _ ← if params.date_from ≠ "" ∧ (parseYmd params.date_from).isSome then
      filterOrFieldError .booking ["arrive_date__gte"]
    else pure ()
  let _ ← if params.date_to ≠ "" ∧ (parseYmd params.date_to).isSome then
      filterOrFieldError .booking ["arrive_date__lte"]
    else pure ()
  pure (csvHeader :: renderedRows)

/-! ## setup_google_drive_watch (api/views.py) -/

structure FolderRec where
  folder_id : String
  folder_name : String
  owner_email : String
  user : Nat
  last_validated : Option Int
  is_active : Bool
  deriving DecidableEq, Repr

structure WatchConfigRec where
  folder_id : String
  user : Nat
  notification_type : String
  webhook_url : Option String
  email_notifications : Bool
  is_active : Bool
  resource_id : String
  expiration : Int
  created_at : Int
  deriving DecidableEq, Repr

/-- The folder details validate_folder returns on success. -/
structure FolderInfo where
  folder_id : String
  name : String
  owner : String
  file_count : Nat
  has_access : Bool
  deriving DecidableEq, Repr

/-- Models GoogleDriveService.setup_watch: the provider has no native folder
watch, so a fixed polling-mode descriptor is returned unconditionally. -/
structure WatchDescriptor where
  status : String
  folder_id : String
  watch_type : String
  interval : String
  webhook_url : Option String
  deriving DecidableEq, Repr

def drive_setup_watch (folderId : String) (webhookUrl : Option String) :
    Option WatchDescriptor :=
  some { status := "success", folder_id := folderId, watch_type := "polling",
         interval := "300", webhook_url := webhookUrl }

/-- The configuration tables the watch endpoint touches. -/
structure ApiState where
  folders : List FolderRec
  watches : List WatchConfigRec
  deriving DecidableEq, Repr

/-- Models api/views.py setup_google_drive_watch, with the provider validation
result supplied as an oracle (`validateResult`) and the request instant
as `now` (the endpoint stamps expiration and created_at microseconds
apart within one request; both are modelled as `now`).  Returns the new
state and the HTTP status code.  The exception branch (provider errors
raised past validation) is environment-level and not modelled. -/
def setup_google_drive_watch (st : ApiState) (userId : Nat)
    (folderIdOpt : Option String) (ntype : String) (whook : Option String)
    (enotif : Bool) (validateResult : Option FolderInfo) (now : Int) :
    ApiState × Nat :=
  match folderIdOpt with
  | Option.none => (st, 400)
  | some fid =>
    match validateResult with
    | Option.none => (st, 404)
    | some info =>
      let st1 : ApiState :=
        match st.folders.find? (fun f => f.folder_id = fid) with
        | some _ =>
          { st with folders := st.folders.map (fun f =>
              if f.folder_id = fid then
                { f with folder_name := info.name, owner_email := info.owner,
                         last_validated := some now }
              else f) }
        | _ =>
          { st with folders := st.folders ++
              [{ folder_id := fid, folder_name := info.name,
                 owner_email := info.owner, user := userId,
                 last_validated := some now, is_active := true }] }
      match st1.watches.find? (fun w =>
          w.folder_id = fid ∧ w.user = userId ∧ w.is_active) with
      | some _ => (st1, 409)
      | _ =>
        match drive_setup_watch fid whook with
        | Option.none => (st1, 500)
        | some wd =>
          let cfg : WatchConfigRec :=
            { folder_id := fid, user := userId, notification_type := ntype,
              webhook_url := whook, email_notifications := enotif,
              is_active := true, resource_id := wd.folder_id,
              expiration := now + 30 * 86400, created_at := now }
          ({ st1 with watches := st1.watches ++ [cfg] }, 201)

/-! ## update_questionnaire (apps/users/views.py) -/

/-- A JSON value in the questionnaire request body. -/
inductive JVal where
  | str (s : String)
  | boolean (b : Bool)
  | num (n : Int)
  | jnull
  deriving DecidableEq, Repr

def JVal.truthy : JVal → Bool
  | .str s => s ≠ ""
  | .boolean b => b
  | .num n => n ≠ 0
  | .jnull => false

abbrev Payload := List (String × JVal)

def pget (d : Payload) (k : String) : Option JVal :=
  (d.find? (fun p => p.1 = k)).map (fun p => p.2)

/-- The PatientQuestionnaire columns the update endpoint touches (file
upload and auto timestamps omitted: the endpoint never writes them). -/
structure Questionnaire where
  gender : JVal
  gender_other : JVal
  date_of_birth : Option Date
  has_mhcp : Bool
  sexual_orientation : JVal
  relationship_status : JVal
  religion : JVal
  is_spiritual : Option Bool
  has_therapy_history : Option Bool
  is_employed : Option Bool
  financial_status : JVal
  is_complete : Bool
  completed_at : Option Int
  deriving DecidableEq, Repr

/-- The empty questionnaire created at account creation. -/
def emptyQuestionnaire : Questionnaire :=
  { gender := .jnull, gender_other := .jnull, date_of_birth := Option.none,
    has_mhcp := false, sexual_orientation := .jnull,
    relationship_status := .jnull, religion := .jnull,
    is_spiritual := Option.none, has_therapy_history := Option.none,
    is_employed := Option.none, financial_status := .jnull,
    is_complete := false, completed_at := Option.none }

/-- Models datetime.strptime with the DD/MM/YYYY format: day and month of one or two
digits, a four-digit year, calendar-valid. -/
def strptimeDMY (s : String) : Option Date :=
  match s.splitOn "/" with
  | [d, m, y] =>
    if d.data ≠ [] ∧ d.data.all isPyDigit ∧ d.length ≤ 2 ∧
        m.data ≠ [] ∧ m.data.all isPyDigit ∧ m.length ≤ 2 ∧
        y.data.all isPyDigit ∧ y.length = 4 ∧
        validDate (digitsToNat y.data) (digitsToNat m.data) (digitsToNat d.data)
      then some { year := digitsToNat y.data, month := digitsToNat m.data,
                  day := digitsToNat d.data }
      else .none
  | _ => .none

/-- Models apps/users/views.py update_questionnaire: the state transition on the
stored questionnaire.  The source applies one guarded assignment per
recognized key, in sequence; the assignments touch pairwise disjoint
columns and each reads only the request body, so they are written here
as one simultaneous record update, field for field:
 - plain fields store the supplied value when the key is present;
 - dateOfBirth is parsed as DD/MM/YYYY, silently skipped when
   unparsable (or not a string);
 - the three sentinel fields store (value == yes);
 - a truthy isComplete marks the questionnaire complete and stamps the
   completion time with the request instant. -/
def update_questionnaire (q : Questionnaire) (d : Payload) (now : Int) :
    Questionnaire :=
  { gender := (pget d "gender").getD q.gender,
    gender_other := (pget d "genderOther").getD q.gender_other,
    date_of_birth :=
      match pget d "dateOfBirth" with
      | some (.str s) =>
        match strptimeDMY s with
        | some dd => some dd
        | _ => q.date_of_birth
      | _ => q.date_of_birth,
    has_mhcp :=
      match pget d "hasMhcp" with
      | some v => v == .str "yes"
      | _ => q.has_mhcp,
    sexual_orientation := (pget d "sexualOrientation").getD q.sexual_orientation,
    relationship_status := (pget d "relationshipStatus").getD q.relationship_status,
    religion := (pget d "religion").getD q.religion,
    is_spiritual :=
      match pget d "isSpiritual" with
      | some v => some (v == .str "yes")
      | _ => q.is_spiritual,
    has_therapy_history :=
      match pget d "hasTherapyHistory" with
      | some v => some (v == .str "yes")
      | _ => q.has_therapy_history,
    is_employed :=
      match pget d "isEmployed" with
      | some v => some (v == .str "yes")
      | _ => q.is_employed,
    financial_status := (pget d "financialStatus").getD q.financial_status,
    is_complete :=
      if ((pget d "isComplete").map JVal.truthy).getD false then true
      else q.is_complete,
    completed_at :=
      if ((pget d "isComplete").map JVal.truthy).getD false then some now
      else q.completed_at }

/-! ## Concrete example inputs (used by closed witness theorems) -/

/-- A day-first parser instance that always fails; the claims it serves
never reach the third-party parser. -/
def dutilNone : String → Option Date := fun _ => Option.none

def egExisting : StoredBooking :=
  { attrs := [("booking_number", .str "214078"),
              ("arrive_date", .date { year := 2025, month := 9, day := 19 }),
              ("depart_date", .date { year := 2025, month := 9, day := 21 }),
              ("status", .str "Booking"),
              ("first_name", .str "Ada"), ("surname", .str "Lovelace"),
              ("original_total", .num { mant := 81040, scale := 2 }),
              ("deposit_required", .num { mant := 10000, scale := 2 })],
    source_file_id := "file1", source_file_time := 100,
    source_row_hash := "h1", ingestion_run := 1 }

def egSt : MergeState := { bookings := [egExisting], conflicts := [] }

/-- A strictly newer run (data_time 200 against the stored 100). -/
def egRun : RunInfo :=
  { id := 2, file_id := "file2", filename := "bookings_2025-09-28",
    data_time := 200 }

/-- An older run (data_time 50 against the stored 100). -/
def egRunOld : RunInfo :=
  { id := 3, file_id := "file3", filename := "bookings_2025-08-01",
    data_time := 50 }

/-- A re-ingested row for the same booking number with a changed
arrive_date (an immutable fact) and a changed status (mutable). -/
def egData : BookingData :=
  [("booking_number", .str "214078"), ("status", .str "Confirmed"),
   ("first_name", .str "Ada"), ("surname", .str "Lovelace"),
   ("arrive_date", .date { year := 2025, month := 9, day := 20 }),
   ("depart_date", .date { year := 2025, month := 9, day := 21 }),
   ("deposit_required", .num { mant := 10000, scale := 2 }),
   ("original_total", .num { mant := 81040, scale := 2 })]

def egFolderInfo : FolderInfo :=
  { folder_id := "f1", name := "SALT-DATA", owner := "owner@example.com",
    file_count := 3, has_access := true }

def egCompletePayload : Payload := [("isComplete", .boolean true)]

instance : IsTotal FileInfo (fun a b : FileInfo => a.data_time ≤ b.data_time) :=
  ⟨fun a b => Int.le_total a.data_time b.data_time⟩

instance : IsTrans FileInfo (fun a b : FileInfo => a.data_time ≤ b.data_time) :=
  ⟨fun _ _ _ hab hbc => le_trans hab hbc⟩


/-- The conclusion of the immutable-field merge claim, at one database
state, row, run and existing booking: the stored row is replaced by an
updated row that keeps every immutable-fact column, exactly one conflict
row is appended per disagreeing immutable field, only immutable fields
are ever logged, the action is conflict exactly when some conflict was
logged, and every changed mutable field is overwritten. -/
def mergePreservesImmutable (st : MergeState) (data : BookingData)
    (run : RunInfo) (existing : StoredBooking) : Prop :=
  ∃ updated : StoredBooking,
    (processBookingRow st data run).1.bookings = st.bookings.map (fun b =>
      if bookingNumberOf b = rowBookingNumber data then updated else b) ∧
    (processBookingRow st data run).1.conflicts = st.conflicts ++
      conflictRowsFor existing data run (rowBookingNumber data) ∧
    (∀ f ∈ specImmutableFields, getattrB updated f = getattrB existing f) ∧
    (∀ f ∈ specImmutableFields, ∀ v, dget data f = some v → v ≠ Val.none →
      getattrB existing f ≠ Val.none →
      pyStr (getattrB existing f) ≠ pyStr v →
      (conflictRowsFor existing data run (rowBookingNumber data)).filter
          (fun r => r.field_name = f) =
        [{ booking_number := rowBookingNumber data, field_name := f,
           existing_value := pyStr (getattrB existing f),
           incoming_value := pyStr v,
           source_file_id := run.file_id, ingestion_run := run.id }]) ∧
    (∀ r ∈ conflictRowsFor existing data run (rowBookingNumber data),
      r.field_name ∈ immutableFields) ∧
    (processBookingRow st data run).2.1 =
      (if conflictRowsFor existing data run (rowBookingNumber data) ≠ [] then
        "conflict" else "updated") ∧
    (∀ f v, dget data f = some v → ¬ f ∈ immutableFields →
      f ≠ "_row_index" → f ≠ "_raw_data" → bookingHasAttr f = true →
      pyEq (getattrB existing f) v = false → getattrB updated f = v)

/-! ## Helper lemmas -/

theorem dget_eq_none_of_not_mem (data : BookingData) (L : List String)
    (h : ∀ p ∈ data, p.1 ∈ L) (k : String) (hk : ¬ k ∈ L) :
    dget data k = Option.none := by
  induction data with
  | nil => rfl
  | cons p t ih =>
    have hp : p.1 ∈ L := h p (by simp)
    have hne : ¬ p.1 = k := fun hcon => hk (hcon ▸ hp)
    simp only [dget, List.find?_cons, hne, decide_False]
    exact ih (fun q hq => h q (by simp [hq]))

theorem dget_some_mem_keys (data : BookingData) (k : String) (v : Val)
    (h : dget data k = some v) : k ∈ data.map (fun p => p.1) := by
  induction data with
  | nil => simp [dget] at h
  | cons p t ih =>
    by_cases hp : p.1 = k
    · simp [hp]
    · simp only [dget, List.find?_cons, hp, decide_False] at h
      simp [ih h]

/-! ## C4 and C5: the value parsers -/

/-- C4 counterexample: the date parser decodes provider serial 45726 to
2025-03-10, not to 2025-09-19 as the claim states. -/
theorem parse_date_serial_45726_counterexample :
    parse_date dutilNone (.n 45726) =
      some { year := 2025, month := 3, day := 10 } ∧
    ¬ parse_date dutilNone (.n 45726) =
      some { year := 2025, month := 9, day := 19 } := by
  constructor
  · decide
  · decide

/-- C4 (amended): every numeric cell value above 10000 is decoded as the
provider date-serial 1900-01-01 plus (n - 2) days; in particular serial
45726 decodes to 2025-03-10. -/
theorem parse_date_excel_serial (dutil : String → Option Date) (n : Int)
    (h : 10000 < n) :
    parse_date dutil (.n n) =
      some (civilFromDays (daysFromCivil 1900 1 1 + (n - 2))) ∧
    parse_date dutil (.n 45726) =
      some { year := 2025, month := 3, day := 10 } := by
  constructor
  · have h0 : n ≠ 0 := by omega
    simp [parse_date, cellTruthy, h0, h]
  · have h0 : (45726 : Int) ≠ 0 := by omega
    have h1 : (10000 : Int) < 45726 := by omega
    simp only [parse_date, cellTruthy, h0, h1]
    norm_num
    decide

/-- C4 witness: the amended rule applied at serial 45726. -/
theorem parse_date_excel_serial_w :
    parse_date dutilNone (.n 45726) =
      some (civilFromDays (daysFromCivil 1900 1 1 + (45726 - 2))) ∧
    parse_date dutilNone (.n 45726) =
      some { year := 2025, month := 3, day := 10 } :=
  parse_date_excel_serial dutilNone 45726 (by decide)

/-- C5: parse_decimal evaluated at the claim's inputs.  The fully
parenthesised positive amount and the error marker behave as documented,
but the input the source's own comment names, with a minus sign inside
the parentheses, produces a double minus and parses to an absent value
instead of -810.40. -/
theorem parse_decimal_examples :
    parse_decimal "(-$810.40)" = Option.none ∧
    parse_decimal "($810.40)" = some { mant := -81040, scale := 2 } ∧
    parse_decimal "#ERROR!" = Option.none ∧
    parse_decimal "(810.40)" = some { mant := -81040, scale := 2 } := by
  refine ⟨?_, ?_, ?_, ?_⟩ <;> decide

/-! ## C2: older rows are ignored without mutation -/

/-- C2: when the incoming data_time is at most the stored
source_file_time, process_booking_row reports ignored and returns the
database state unchanged — every stored field, including the merge
metadata, is untouched. -/
theorem older_row_ignored (st : MergeState) (data : BookingData)
    (run : RunInfo) (existing : StoredBooking)
    (hkeys : ∀ p ∈ data, p.1 ∈ normalizedRowKeys)
    (hlk : lookupBooking st.bookings (rowBookingNumber data) = some existing)
    (holder : run.data_time ≤ existing.source_file_time) :
    processBookingRow st data run = (st, "ignored", "Older data ignored") := by
  have hsft : dget data "source_file_time" = Option.none :=
    dget_eq_none_of_not_mem data normalizedRowKeys hkeys _ (by decide)
  simp [processBookingRow, hlk, hsft, holder]

/-- C2 witness: a concrete older re-ingestion of booking 214078. -/
theorem older_row_ignored_w :
    processBookingRow egSt egData egRunOld =
      (egSt, "ignored", "Older data ignored") :=
  older_row_ignored egSt egData egRunOld egExisting (by decide) (by decide)
    (by decide)

/-! ## C1: immutable facts survive the merge, conflicts are logged -/

theorem find?_filter_of_ne (l : List (String × Val)) (f g : String)
    (hgf : ¬ g = f) :
    (l.filter (fun p => p.1 ≠ f)).find? (fun p => p.1 = g) =
      l.find? (fun p => p.1 = g) := by
  induction l with
  | nil => rfl
  | cons p t ih =>
    by_cases hp : p.1 = f
    · have hpg : ¬ p.1 = g := fun hcon => hgf (hcon.symm.trans hp)
      rw [List.filter_cons_of_neg (by simp [hp]),
        List.find?_cons_of_neg _ (by simp [hpg]), ih]
    · rw [List.filter_cons_of_pos (by simp [hp])]
      by_cases hpg : p.1 = g
      · rw [List.find?_cons_of_pos _ (by simp [hpg]),
          List.find?_cons_of_pos _ (by simp [hpg])]
      · rw [List.find?_cons_of_neg _ (by simp [hpg]),
          List.find?_cons_of_neg _ (by simp [hpg]), ih]

theorem getattrB_setAttrB_self (b : StoredBooking) (f : String) (v : Val) :
    getattrB (setAttrB b f v) f = v := by
  simp [getattrB, setAttrB, List.find?_cons]

theorem getattrB_setAttrB_ne (b : StoredBooking) (f g : String) (v : Val)
    (h : ¬ g = f) :
    getattrB (setAttrB b f v) g = getattrB b g := by
  have hfg : ¬ f = g := fun hcon => h hcon.symm
  simp only [getattrB, setAttrB, List.find?_cons, hfg, decide_False]
  rw [find?_filter_of_ne _ _ _ h]

theorem getattrB_updStep_ne (data : BookingData) (bn : StoredBooking × Nat)
    (f g : String) (h : ¬ g = f) :
    getattrB ((updStep data bn f).1) g = getattrB bn.1 g := by
  unfold updStep
  cases dget data f with
  | none => rfl
  | some v =>
    dsimp only
    split
    · exact getattrB_setAttrB_ne _ _ _ _ h
    · rfl

theorem foldl_updStep_preserve (data : BookingData) (g : String) :
    ∀ (K : List String), ¬ g ∈ K → ∀ bn : StoredBooking × Nat,
      getattrB ((K.foldl (updStep data) bn).1) g = getattrB bn.1 g := by
  intro K
  induction K with
  | nil => intro _ bn; rfl
  | cons f K ih =>
    intro hg bn
    have hgf : ¬ g = f := fun hcon => hg (by simp [hcon])
    have hgK : ¬ g ∈ K := fun hcon => hg (by simp [hcon])
    simp only [List.foldl_cons]
    rw [ih hgK, getattrB_updStep_ne data bn f g hgf]

theorem foldl_updStep_overwrite (data : BookingData) (g : String) (v : Val)
    (hv : dget data g = some v) (hattr : bookingHasAttr g = true) :
    ∀ (K : List String), K.Nodup → g ∈ K →
      ∀ bn : StoredBooking × Nat, pyEq (getattrB bn.1 g) v = false →
        getattrB ((K.foldl (updStep data) bn).1) g = v := by
  intro K
  induction K with
  | nil => intro _ hg; cases hg
  | cons f K ih =>
    intro hnd hg bn hne
    rcases List.nodup_cons.mp hnd with ⟨hfK, hndK⟩
    by_cases hgf : g = f
    · subst hgf
      have hstep : (updStep data bn g).1 = setAttrB bn.1 g v := by
        unfold updStep
        rw [hv]
        dsimp only
        rw [if_pos ⟨hattr, by simp [hne]⟩]
      simp only [List.foldl_cons]
      rw [foldl_updStep_preserve data g K hfK, hstep,
        getattrB_setAttrB_self]
    · have hgK : g ∈ K := by
        rcases List.mem_cons.mp hg with h | h
        · exact absurd h hgf
        · exact h
      simp only [List.foldl_cons]
      exact ih hndK hgK _ (by
        rw [getattrB_updStep_ne data bn f g hgf]; exact hne)

theorem not_mem_mutableKeys_of_immutable (data : BookingData) (g : String)
    (hg : g ∈ immutableFields) : ¬ g ∈ mutableKeys data := by
  intro hcon
  rcases List.mem_filter.mp hcon with ⟨_, hcond⟩
  simp at hcond
  exact hcond.1 hg

theorem mutableKeys_subset_keys (data : BookingData) (g : String)
    (hg : g ∈ mutableKeys data) : g ∈ data.map (fun p => p.1) :=
  (List.mem_filter.mp hg).1

theorem mem_mutableKeys (data : BookingData) (g : String)
    (hkey : g ∈ data.map (fun p => p.1)) (him : ¬ g ∈ immutableFields)
    (hm1 : ¬ g = "_row_index") (hm2 : ¬ g = "_raw_data") :
    g ∈ mutableKeys data := by
  refine List.mem_filter.mpr ⟨hkey, ?_⟩
  simp [him, hm1, hm2]

theorem conflictGen_field_name (e : StoredBooking) (data : BookingData)
    (run : RunInfo) (bn f : String) (r : ConflictRow)
    (h : conflictGen e data run bn f = some r) : r.field_name = f := by
  unfold conflictGen at h
  cases hd : dget data f with
  | none => rw [hd] at h; cases h
  | some v =>
    rw [hd] at h
    dsimp only at h
    split at h
    · cases h; rfl
    · cases h

theorem mem_conflictRows_field (e : StoredBooking) (data : BookingData)
    (run : RunInfo) (bn : String) (L : List String) (r : ConflictRow)
    (hr : r ∈ L.filterMap (conflictGen e data run bn)) : r.field_name ∈ L := by
  rcases List.mem_filterMap.mp hr with ⟨f, hf, hgen⟩
  rw [conflictGen_field_name e data run bn f r hgen]
  exact hf

theorem conflictRows_filter_eq (e : StoredBooking) (data : BookingData)
    (run : RunInfo) (bn : String) :
    ∀ (L : List String), L.Nodup → ∀ f, f ∈ L →
      (L.filterMap (conflictGen e data run bn)).filter
          (fun r => r.field_name = f) =
        (conflictGen e data run bn f).toList := by
  intro L
  induction L with
  | nil => intro _ f hf; cases hf
  | cons x L ih =>
    intro hnd f hf
    rcases List.nodup_cons.mp hnd with ⟨hxL, hndL⟩
    have hrest : ∀ r ∈ L.filterMap (conflictGen e data run bn),
        r.field_name ∈ L := fun r hr => mem_conflictRows_field e data run bn L r hr
    by_cases hfx : f = x
    · subst hfx
      have hnone : (L.filterMap (conflictGen e data run bn)).filter
          (fun r => r.field_name = f) = [] := by
        refine List.filter_eq_nil_iff.mpr (fun r hr => ?_)
        have := hrest r hr
        simp only [decide_eq_true_eq]
        intro hcon
        exact hxL (hcon ▸ this)
      cases hgen : conflictGen e data run bn f with
      | none => simp [List.filterMap_cons, hgen, hnone]
      | some r =>
        have hfn : r.field_name = f := conflictGen_field_name _ _ _ _ _ _ hgen
        simp [List.filterMap_cons, hgen, List.filter_cons, hfn, hnone]
    · have hfL : f ∈ L := by
        rcases List.mem_cons.mp hf with h | h
        · exact absurd h hfx
        · exact h
      cases hgen : conflictGen e data run bn x with
      | none => simpa [List.filterMap_cons, hgen] using ih hndL f hfL
      | some r =>
        have hfn : r.field_name = x := conflictGen_field_name _ _ _ _ _ _ hgen
        have : ¬ r.field_name = f := by rw [hfn]; exact fun hcon => hfx hcon.symm
        simpa [List.filterMap_cons, hgen, List.filter_cons, this]
          using ih hndL f hfL

/-- C1: on a strictly newer row for an existing booking,
process_booking_row keeps every stored immutable-fact value, logs
exactly one BookingConflict row (recording existing and incoming values
as text) per immutable field whose non-null stored value disagrees with
a non-null incoming value, logs conflicts only for immutable fields,
returns action conflict when any conflict was logged and updated
otherwise, and still overwrites every changed mutable field. -/
theorem immutable_merge_conflict (st : MergeState) (data : BookingData)
    (run : RunInfo) (existing : StoredBooking)
    (hkeys : ∀ p ∈ data, p.1 ∈ normalizedRowKeys)
    (hnd : (data.map (fun p => p.1)).Nodup)
    (hlk : lookupBooking st.bookings (rowBookingNumber data) = some existing)
    (hnewer : existing.source_file_time < run.data_time) :
    mergePreservesImmutable st data run existing := by
  have hsft : dget data "source_file_time" = Option.none :=
    dget_eq_none_of_not_mem data normalizedRowKeys hkeys _ (by decide)
  have hbd : dget data "booking_date" = Option.none :=
    dget_eq_none_of_not_mem data normalizedRowKeys hkeys _ (by decide)
  have hnle : ¬ run.data_time ≤ existing.source_file_time := by omega
  have hkeysub : ∀ g, g ∈ data.map (fun p => p.1) → g ∈ normalizedRowKeys := by
    intro g hgm
    rcases List.mem_map.mp hgm with ⟨p, hp, rfl⟩
    exact hkeys p hp
  unfold mergePreservesImmutable
  refine ⟨{ (applyMutableUpdates existing data).1 with
            source_file_id := run.file_id,
            source_file_time := run.data_time,
            source_row_hash := calculateRowHash data,
            ingestion_run := run.id },
    ?_, ?_, ?_, ?_, ?_, ?_, ?_⟩
  · simp only [processBookingRow, hlk, hsft, hnle, if_false]
  · simp only [processBookingRow, hlk, hsft, hnle, if_false]
  · -- immutable facts keep their stored values
    intro f hf
    show getattrB (applyMutableUpdates existing data).1 f = getattrB existing f
    have hpres : ¬ f ∈ mutableKeys data →
        getattrB (applyMutableUpdates existing data).1 f = getattrB existing f :=
      fun hnm => foldl_updStep_preserve data f (mutableKeys data) hnm (existing, 0)
    simp only [specImmutableFields, List.mem_cons, List.not_mem_nil,
      or_false] at hf
    rcases hf with rfl | rfl | rfl | rfl | rfl
    · refine hpres (fun hcon => ?_)
      have := hkeysub _ (mutableKeys_subset_keys data _ hcon)
      revert this
      decide
    · exact hpres (not_mem_mutableKeys_of_immutable data _ (by decide))
    · exact hpres (not_mem_mutableKeys_of_immutable data _ (by decide))
    · exact hpres (not_mem_mutableKeys_of_immutable data _ (by decide))
    · exact hpres (not_mem_mutableKeys_of_immutable data _ (by decide))
  · -- exactly one conflict row per disagreeing immutable field
    intro f hf v hv hvn hen hne
    simp only [specImmutableFields, List.mem_cons, List.not_mem_nil,
      or_false] at hf
    have hone : f ∈ immutableFields →
        (conflictRowsFor existing data run (rowBookingNumber data)).filter
            (fun r => r.field_name = f) =
          [{ booking_number := rowBookingNumber data, field_name := f,
             existing_value := pyStr (getattrB existing f),
             incoming_value := pyStr v,
             source_file_id := run.file_id, ingestion_run := run.id }] := by
      intro hfim
      show (immutableFields.filterMap
          (conflictGen existing data run (rowBookingNumber data))).filter
          (fun r => r.field_name = f) = _
      rw [conflictRows_filter_eq existing data run (rowBookingNumber data)
        immutableFields (by decide) f hfim]
      unfold conflictGen
      rw [hv]
      dsimp only
      rw [if_pos ⟨hvn, hen, hne⟩]
      rfl
    rcases hf with rfl | rfl | rfl | rfl | rfl
    · rw [hbd] at hv; cases hv
    · exact hone (by decide)
    · exact hone (by decide)
    · exact hone (by decide)
    · exact hone (by decide)
  · -- conflicts are logged only for immutable fields
    intro r hr
    exact mem_conflictRows_field existing data run (rowBookingNumber data)
      immutableFields r hr
  · -- the action is conflict exactly when a conflict was logged
    simp only [processBookingRow, hlk, hsft, hnle, if_false]
  · -- every changed mutable field is overwritten
    intro f v hv hni hm1 hm2 hattr hne
    show getattrB (applyMutableUpdates existing data).1 f = v
    have hkey : f ∈ data.map (fun p => p.1) := dget_some_mem_keys data f v hv
    have hmem : f ∈ mutableKeys data := mem_mutableKeys data f hkey hni hm1 hm2
    have hndk : (mutableKeys data).Nodup := List.Nodup.filter _ hnd
    exact foldl_updStep_overwrite data f v hv hattr (mutableKeys data) hndk
      hmem (existing, 0) hne

/-- C1 witness: booking 214078 re-ingested from a strictly newer file
with a changed arrive_date and a changed status. -/
theorem immutable_merge_conflict_w :
    mergePreservesImmutable egSt egData egRun egExisting :=
  immutable_merge_conflict egSt egData egRun egExisting (by decide)
    (by decide) (by decide) (by decide)

/-! ## C3: run counters, status and completion stamp of ingest_file -/

theorem processBookingRow_action_cases (st : MergeState) (data : BookingData)
    (run : RunInfo) :
    (processBookingRow st data run).2.1 = "inserted" ∨
    (processBookingRow st data run).2.1 = "updated" ∨
    (processBookingRow st data run).2.1 = "ignored" ∨
    (processBookingRow st data run).2.1 = "conflict" := by
  rcases hlk : lookupBooking st.bookings (rowBookingNumber data) with _ | existing
  · simp [processBookingRow, hlk]
  · simp only [processBookingRow, hlk]
    split
    · simp
    · split <;> simp

theorem bumpCounters_inserted (c : RunCounters) :
    bumpCounters c "inserted" = { c with rows_inserted := c.rows_inserted + 1 } :=
  rfl

theorem bumpCounters_updated (c : RunCounters) :
    bumpCounters c "updated" = { c with rows_updated := c.rows_updated + 1 } :=
  rfl

theorem bumpCounters_ignored (c : RunCounters) :
    bumpCounters c "ignored" = { c with rows_ignored := c.rows_ignored + 1 } :=
  rfl

theorem bumpCounters_conflict (c : RunCounters) :
    bumpCounters c "conflict" =
      { c with conflicts_detected := c.conflicts_detected + 1,
               rows_updated := c.rows_updated + 1 } :=
  rfl

theorem rowsLoop_spec (run : RunInfo) (rows : List RowInput) :
    ∀ (m : MergeState) (r : List RawRowRec) (q : List QuarantinedRowRec)
      (c : RunCounters),
      (rowsLoop run rows m r q c).2.2.2.2.length = rows.length ∧
      (∀ a ∈ (rowsLoop run rows m r q c).2.2.2.2,
        a = "inserted" ∨ a = "updated" ∨ a = "ignored" ∨ a = "conflict" ∨
          a = "quarantined") ∧
      (rowsLoop run rows m r q c).2.2.2.1.rows_processed = c.rows_processed ∧
      (rowsLoop run rows m r q c).2.2.2.1.rows_inserted =
        c.rows_inserted +
          (rowsLoop run rows m r q c).2.2.2.2.count "inserted" ∧
      (rowsLoop run rows m r q c).2.2.2.1.rows_updated =
        c.rows_updated + (rowsLoop run rows m r q c).2.2.2.2.count "updated" +
          (rowsLoop run rows m r q c).2.2.2.2.count "conflict" ∧
      (rowsLoop run rows m r q c).2.2.2.1.rows_ignored =
        c.rows_ignored + (rowsLoop run rows m r q c).2.2.2.2.count "ignored" ∧
      (rowsLoop run rows m r q c).2.2.2.1.conflicts_detected =
        c.conflicts_detected +
          (rowsLoop run rows m r q c).2.2.2.2.count "conflict" ∧
      (rowsLoop run rows m r q c).2.2.2.1.rows_quarantined =
        c.rows_quarantined +
          (rowsLoop run rows m r q c).2.2.2.2.count "quarantined" := by
  induction rows with
  | nil =>
    intro m r q c
    refine ⟨rfl, ?_, rfl, ?_, ?_, ?_, ?_, ?_⟩ <;> simp [rowsLoop]
  | cons row rest ih =>
    intro m r q c
    cases hf : row.fault with
    | some msg =>
      simp only [rowsLoop, hf]
      obtain ⟨h1, h2, h3, h4, h5, h6, h7, h8⟩ := ih m
        (r ++ [{ file_id := run.file_id, row_index := rowIdx row.data,
                 row_hash := calculateRowHash row.data,
                 ingestion_run := run.id }])
        (q ++ [{ file_id := run.file_id, row_index := rowIdx row.data,
                 error_message := msg, ingestion_run := run.id }])
        { c with rows_quarantined := c.rows_quarantined + 1 }
      refine ⟨by simp [h1], ?_, by simpa using h3, ?_, ?_, ?_, ?_, ?_⟩
      · intro a ha
        rcases List.mem_cons.mp ha with rfl | ha
        · right; right; right; right; rfl
        · exact h2 a ha
      all_goals simp only [List.count_cons, h4, h5, h6, h7, h8] <;>
        simp <;> omega
    | none =>
      simp only [rowsLoop, hf]
      obtain ⟨h1, h2, h3, h4, h5, h6, h7, h8⟩ := ih
        (processBookingRow m row.data run).1
        (r ++ [{ file_id := run.file_id, row_index := rowIdx row.data,
                 row_hash := calculateRowHash row.data,
                 ingestion_run := run.id }]) q
        (bumpCounters c (processBookingRow m row.data run).2.1)
      rcases processBookingRow_action_cases m row.data run with
        hc | hc | hc | hc <;>
      rw [hc] at h1 h2 h3 h4 h5 h6 h7 h8 ⊢ <;>
      simp only [bumpCounters_inserted, bumpCounters_updated,
        bumpCounters_ignored, bumpCounters_conflict]
        at h1 h2 h3 h4 h5 h6 h7 h8 ⊢ <;>
      refine ⟨by simp [h1], ?_, ?_, ?_, ?_, ?_, ?_, ?_⟩ <;>
      first
      | (intro a ha
         rcases List.mem_cons.mp ha with rfl | ha
         · simp
         · exact h2 a ha)
      | (simp [List.count_cons, h3, h4, h5, h6, h7, h8]
         try omega)

/-- Every element of the trace is one of the five outcome labels, so the
five counts partition the trace length. -/
theorem count_partition (tr : List String)
    (h : ∀ a ∈ tr, a = "inserted" ∨ a = "updated" ∨ a = "ignored" ∨
      a = "conflict" ∨ a = "quarantined") :
    tr.count "inserted" + tr.count "updated" + tr.count "ignored" +
      tr.count "conflict" + tr.count "quarantined" = tr.length := by
  induction tr with
  | nil => rfl
  | cons a t ih =>
    have ht := ih (fun b hb => h b (List.mem_cons_of_mem a hb))
    rcases h a (List.mem_cons_self a t) with rfl | rfl | rfl | rfl | rfl <;>
      simp only [List.count_cons, List.length_cons] <;> simp <;> omega

/-- C3: after every ingest_file call that finishes without an escaping
exception, the run is completed exactly when nothing was quarantined
(and partial otherwise), completed_at is stamped with the finishing
instant, rows_processed equals inserted + updated + ignored +
quarantined, and the per-outcome trace accounts for every counter, a
conflict row incrementing both conflicts_detected and rows_updated. -/
theorem ingest_file_counters (db : PipelineDB) (folderId : String)
    (run : RunInfo) (ex : ExtractionResult) (now : Int) :
    (ingest_file db folderId run ex now).2.1.counters.rows_processed =
      ex.bookings.length + ex.errors.length ∧
    (ingest_file db folderId run ex now).2.1.counters.rows_inserted =
      (ingest_file db folderId run ex now).2.2.count "inserted" ∧
    (ingest_file db folderId run ex now).2.1.counters.rows_updated =
      (ingest_file db folderId run ex now).2.2.count "updated" +
        (ingest_file db folderId run ex now).2.2.count "conflict" ∧
    (ingest_file db folderId run ex now).2.1.counters.conflicts_detected =
      (ingest_file db folderId run ex now).2.2.count "conflict" ∧
    (ingest_file db folderId run ex now).2.1.counters.rows_ignored =
      (ingest_file db folderId run ex now).2.2.count "ignored" ∧
    (ingest_file db folderId run ex now).2.1.counters.rows_quarantined =
      (ingest_file db folderId run ex now).2.2.count "quarantined" +
        ex.errors.length ∧
    (ingest_file db folderId run ex now).2.1.counters.rows_processed =
      (ingest_file db folderId run ex now).2.1.counters.rows_inserted +
        (ingest_file db folderId run ex now).2.1.counters.rows_updated +
        (ingest_file db folderId run ex now).2.1.counters.rows_ignored +
        (ingest_file db folderId run ex now).2.1.counters.rows_quarantined ∧
    ((ingest_file db folderId run ex now).2.1.status = "completed" ↔
      (ingest_file db folderId run ex now).2.1.counters.rows_quarantined = 0) ∧
    ((ingest_file db folderId run ex now).2.1.status = "completed" ∨
      (ingest_file db folderId run ex now).2.1.status = "partial") ∧
    (ingest_file db folderId run ex now).2.1.completed_at = some now := by
  obtain ⟨h1, h2, h3, h4, h5, h6, h7, h8⟩ :=
    rowsLoop_spec run ex.bookings db.merge db.rawRows db.quarantined
      { rows_processed := ex.bookings.length + ex.errors.length,
        rows_inserted := 0, rows_updated := 0, rows_ignored := 0,
        rows_quarantined := 0, conflicts_detected := 0 }
  have hcnt := count_partition _ h2
  simp only [ingest_file]
  refine ⟨by simpa using h3, by simpa using h4, ?_, by simpa using h7,
    by simpa using h6, by simp [h8], ?_, ?_, ?_, by trivial⟩
  · simp only [h5]
    omega
  · simp only [h3, h4, h5, h6, h7, h8, h1]
    omega
  · constructor
    · intro hs
      by_cases hz : (rowsLoop run ex.bookings db.merge db.rawRows
          db.quarantined
          { rows_processed := ex.bookings.length + ex.errors.length,
            rows_inserted := 0, rows_updated := 0, rows_ignored := 0,
            rows_quarantined := 0,
            conflicts_detected := 0 }).2.2.2.1.rows_quarantined +
          ex.errors.length = 0
      · simpa using hz
      · rw [if_neg (by simpa using hz)] at hs
        exact absurd hs (by decide)
    · intro hz
      rw [if_pos (by simpa using hz)]
  · by_cases hz : (rowsLoop run ex.bookings db.merge db.rawRows
        db.quarantined
        { rows_processed := ex.bookings.length + ex.errors.length,
          rows_inserted := 0, rows_updated := 0, rows_ignored := 0,
          rows_quarantined := 0,
          conflicts_detected := 0 }).2.2.2.1.rows_quarantined +
        ex.errors.length = 0
    · left; rw [if_pos (by simpa using hz)]
    · right; rw [if_neg (by simpa using hz)]

/-! ## C6: discovery returns exactly the new files, sorted by data_time -/

theorem mem_driveSheetChildren (allFiles : List DriveFile) (folderId : String)
    (f : DriveFile) :
    f ∈ driveSheetChildren allFiles folderId ↔
      f ∈ allFiles ∧ f.parent = folderId ∧
        f.mimeType = "application/vnd.google-apps.spreadsheet" ∧
        f.trashed = false := by
  unfold driveSheetChildren
  rw [(List.perm_insertionSort _ _).mem_iff, List.mem_filter]
  simp

theorem ingest_file_run_file_id (db : PipelineDB) (folderId : String)
    (run : RunInfo) (ex : ExtractionResult) (now : Int) :
    (ingest_file db folderId run ex now).2.1.file_id = run.file_id :=
  rfl

theorem process_folder_foldl_order (dutil : String → Option Date)
    (folderId : String) (extractionOf : String → ExtractionResult) (now : Int) :
    ∀ (files : List FileInfo) (db : PipelineDB) (acc : List RunRecord),
      ((files.foldl (fun acc fi =>
          let run : RunInfo :=
            { id := acc.2.length, file_id := fi.file_id,
              filename := fi.filename, data_time := fi.data_time }
          let o := ingest_file acc.1 folderId run (extractionOf fi.file_id) now
          (o.1, acc.2 ++ [o.2.1])) (db, acc)).2).map (fun rr => rr.file_id) =
        acc.map (fun rr => rr.file_id) ++ files.map (fun fi => fi.file_id) := by
  intro files
  induction files with
  | nil => intro db acc; simp
  | cons fi rest ih =>
    intro db acc
    simp only [List.foldl_cons]
    rw [ih]
    simp [ingest_file_run_file_id]

/-- C6: discover_new_files returns exactly the folder's non-trashed
spreadsheet children not yet recorded in ProcessedFile, each enriched by
toFileInfo (whose data_time combines a filename-embedded date with the
creation time of day, else the creation timestamp); the result is in
ascending order of data_time; and process_folder ingests the files in
exactly that order. -/
theorem discover_new_files_spec (dutil : String → Option Date)
    (allFiles : List DriveFile) (folderId : String)
    (processedIds : List String) (db : PipelineDB)
    (extractionOf : String → ExtractionResult) (now : Int) :
    (∀ fi, fi ∈ discover_new_files dutil allFiles folderId processedIds ↔
      ∃ f, f ∈ allFiles ∧ f.parent = folderId ∧
        f.mimeType = "application/vnd.google-apps.spreadsheet" ∧
        f.trashed = false ∧ ¬ f.id ∈ processedIds ∧ fi = toFileInfo dutil f) ∧
    List.Pairwise (fun a b => a.data_time ≤ b.data_time)
      (discover_new_files dutil allFiles folderId processedIds) ∧
    (process_folder dutil db folderId allFiles processedIds
        extractionOf now).2.map (fun rr => rr.file_id) =
      (discover_new_files dutil allFiles folderId processedIds).map
        (fun fi => fi.file_id) := by
  refine ⟨?_, ?_, ?_⟩
  · intro fi
    unfold discover_new_files
    rw [(List.perm_insertionSort _ _).mem_iff, List.mem_map]
    constructor
    · rintro ⟨f, hf, rfl⟩
      rw [List.mem_filter] at hf
      obtain ⟨hmem, hcond⟩ := hf
      rw [mem_driveSheetChildren] at hmem
      exact ⟨f, hmem.1, hmem.2.1, hmem.2.2.1, hmem.2.2.2,
        by simpa using hcond, rfl⟩
    · rintro ⟨f, hmem, hpar, hmime, htr, hproc, rfl⟩
      refine ⟨f, ?_, rfl⟩
      rw [List.mem_filter]
      exact ⟨(mem_driveSheetChildren allFiles folderId f).mpr
        ⟨hmem, hpar, hmime, htr⟩, by simpa using hproc⟩
  · exact List.sorted_insertionSort _ _
  · unfold process_folder
    rw [process_folder_foldl_order dutil folderId extractionOf now
      (discover_new_files dutil allFiles folderId processedIds) db []]
    simp

/-! ## C7 and C8: the dashboard filters name a nonexistent Booking field -/

/-- C7: the Booking model has no field named user (a booking reaches its
user only through ingestion_run, then folder, then user), yet the
folder-bookings browser, the CSV export and the guest-extra-night
eligibility query all filter Booking on user, so each raises a
field-lookup error naming user on every request. -/
theorem booking_user_filter_field_error :
    (¬ "user" ∈ fieldNamesOf .booking) ∧
    pathResolves .booking ["ingestion_run", "folder", "user"] = true ∧
    folderBookingsQueryset = Except.error "user" ∧
    guestEligibilityQueryset = Except.error "user" ∧
    (∀ (params : BookingFilterParams) (rows : List (List String)),
      export_bookings_csv params rows = Except.error "user") := by
  refine ⟨by decide, by decide, by rfl, by rfl, ?_⟩
  intro params rows
  rfl

/-- C8: the CSV export never reaches the header or a data row — for
every request its base queryset filters Booking on the nonexistent user
field, and queryset construction raises a FieldError naming user first.
(The header literal in the source does have the 18 claimed columns.) -/
theorem export_csv_field_error :
    (∀ (params : BookingFilterParams) (rows : List (List String)),
      export_bookings_csv params rows = Except.error "user") ∧
    csvHeader.length = 18 :=
  ⟨fun _ _ => rfl, by decide⟩

/-! ## C9: duplicate-watch conflict and 30-day expiration -/

/-- C9: with a folder_id supplied and provider validation succeeding, the
watch-setup endpoint answers 409 and leaves the watch table unchanged
exactly when an active configuration for the (folder, user) pair already
exists; otherwise it answers 201 and appends one configuration whose
expiration is its creation time plus 30 days. -/
theorem setup_watch_conflict_spec (st : ApiState) (userId : Nat)
    (fid : String) (ntype : String) (whook : Option String) (enotif : Bool)
    (info : FolderInfo) (now : Int) :
    (((setup_google_drive_watch st userId (some fid) ntype whook enotif
          (some info) now).2 = 409 ∧
        (setup_google_drive_watch st userId (some fid) ntype whook enotif
          (some info) now).1.watches = st.watches) ↔
      ∃ w ∈ st.watches, w.folder_id = fid ∧ w.user = userId ∧
        w.is_active = true) ∧
    ((¬ ∃ w ∈ st.watches, w.folder_id = fid ∧ w.user = userId ∧
        w.is_active = true) →
      ∃ cfg : WatchConfigRec,
        (setup_google_drive_watch st userId (some fid) ntype whook enotif
          (some info) now).2 = 201 ∧
        (setup_google_drive_watch st userId (some fid) ntype whook enotif
          (some info) now).1.watches = st.watches ++ [cfg] ∧
        cfg.expiration = cfg.created_at + 30 * 86400 ∧
        cfg.created_at = now ∧ cfg.is_active = true) := by
  unfold setup_google_drive_watch
  dsimp only
  cases hfol : st.folders.find? (fun f => f.folder_id = fid) <;>
  dsimp only <;>
  cases hw : st.watches.find? (fun w =>
      w.folder_id = fid ∧ w.user = userId ∧ w.is_active) <;>
  dsimp only [drive_setup_watch]
  case none.none | some.none =>
    have habs : ¬ ∃ w ∈ st.watches, w.folder_id = fid ∧ w.user = userId ∧
        w.is_active = true := by
      rintro ⟨w, hmem, hw1, hw2, hw3⟩
      have := List.find?_eq_none.mp hw w hmem
      simp [hw1, hw2, hw3] at this
    refine ⟨?_, ?_⟩
    · constructor
      · rintro ⟨hcode, -⟩
        exact absurd hcode (by decide)
      · intro hex
        exact absurd hex habs
    · intro _
      exact ⟨_, rfl, rfl, rfl, rfl, rfl⟩
  case none.some w | some.some w =>
    have hp := List.find?_some hw
    have hm := List.mem_of_find?_eq_some hw
    simp only [decide_eq_true_eq] at hp
    refine ⟨?_, ?_⟩
    · constructor
      · intro _
        exact ⟨w, hm, hp.1, hp.2.1, hp.2.2⟩
      · intro _
        exact ⟨rfl, rfl⟩
    · intro hnex
      exact absurd ⟨w, hm, hp.1, hp.2.1, hp.2.2⟩ hnex

/-- C9 witness: on an empty configuration table the endpoint creates the
watch with a 30-day expiration and answers 201. -/
theorem setup_watch_conflict_spec_w :
    ∃ cfg : WatchConfigRec,
      (setup_google_drive_watch { folders := [], watches := [] } 1 (some "f1")
        "all" Option.none true (some egFolderInfo) 0).2 = 201 ∧
      (setup_google_drive_watch { folders := [], watches := [] } 1 (some "f1")
        "all" Option.none true (some egFolderInfo) 0).1.watches =
        ([] : List WatchConfigRec) ++ [cfg] ∧
      cfg.expiration = cfg.created_at + 30 * 86400 ∧
      cfg.created_at = 0 ∧ cfg.is_active = true :=
  (setup_watch_conflict_spec { folders := [], watches := [] } 1 "f1" "all"
    Option.none true egFolderInfo 0).2 (by simp)

/-! ## C10: questionnaire updates re-stamp the completion time -/

theorem optGetD_idem {α : Type} (o : Option α) (x : α) :
    o.getD (o.getD x) = o.getD x := by
  cases o <;> rfl

/-- C10 counterexample: calling update_questionnaire twice with the same
completion-signalling payload, at instants 0 and then 1, leaves a
different stored state after the second call (completed_at is
re-stamped), refuting idempotence for every payload. -/
theorem update_questionnaire_not_idempotent :
    update_questionnaire (update_questionnaire emptyQuestionnaire
        egCompletePayload 0) egCompletePayload 1 ≠
      update_questionnaire emptyQuestionnaire egCompletePayload 0 := by
  decide

/-- C10 (amended): a second identical call leaves the questionnaire in
exactly the state of the first call, except that a payload signalling
completion re-stamps completed_at with the second call's instant; and
every field whose key is absent from the payload is left unchanged by
each call. -/
theorem update_questionnaire_idem (q : Questionnaire) (d : Payload)
    (t1 t2 : Int) :
    (update_questionnaire (update_questionnaire q d t1) d t2 =
      if ((pget d "isComplete").map JVal.truthy).getD false then
        { update_questionnaire q d t1 with completed_at := some t2 }
      else update_questionnaire q d t1) ∧
    (pget d "gender" = Option.none →
      (update_questionnaire q d t1).gender = q.gender) ∧
    (pget d "genderOther" = Option.none →
      (update_questionnaire q d t1).gender_other = q.gender_other) ∧
    (pget d "dateOfBirth" = Option.none →
      (update_questionnaire q d t1).date_of_birth = q.date_of_birth) ∧
    (pget d "hasMhcp" = Option.none →
      (update_questionnaire q d t1).has_mhcp = q.has_mhcp) ∧
    (pget d "sexualOrientation" = Option.none →
      (update_questionnaire q d t1).sexual_orientation =
        q.sexual_orientation) ∧
    (pget d "relationshipStatus" = Option.none →
      (update_questionnaire q d t1).relationship_status =
        q.relationship_status) ∧
    (pget d "religion" = Option.none →
      (update_questionnaire q d t1).religion = q.religion) ∧
    (pget d "isSpiritual" = Option.none →
      (update_questionnaire q d t1).is_spiritual = q.is_spiritual) ∧
    (pget d "hasTherapyHistory" = Option.none →
      (update_questionnaire q d t1).has_therapy_history =
        q.has_therapy_history) ∧
    (pget d "isEmployed" = Option.none →
      (update_questionnaire q d t1).is_employed = q.is_employed) ∧
    (pget d "financialStatus" = Option.none →
      (update_questionnaire q d t1).financial_status = q.financial_status) ∧
    (pget d "isComplete" = Option.none →
      (update_questionnaire q d t1).is_complete = q.is_complete ∧
      (update_questionnaire q d t1).completed_at = q.completed_at) := by
  refine ⟨?_, ?_, ?_, ?_, ?_, ?_, ?_, ?_, ?_, ?_, ?_, ?_, ?_⟩
  · by_cases hc : ((pget d "isComplete").map JVal.truthy).getD false = true
    · rw [if_pos hc]
      simp only [update_questionnaire, hc, if_true, Questionnaire.mk.injEq]
      refine ⟨?_, ?_, ?_, ?_, ?_, ?_, ?_, ?_, ?_, ?_, ?_, trivial, trivial⟩
      · exact optGetD_idem _ _
      · exact optGetD_idem _ _
      · cases hb : pget d "dateOfBirth" with
        | none => rfl
        | some v =>
          cases v with
          | str s =>
            dsimp only
            cases strptimeDMY s <;> rfl
          | boolean b => rfl
          | num n => rfl
          | jnull => rfl
      · cases pget d "hasMhcp" <;> rfl
      · exact optGetD_idem _ _
      · exact optGetD_idem _ _
      · exact optGetD_idem _ _
      · cases pget d "isSpiritual" <;> rfl
      · cases pget d "hasTherapyHistory" <;> rfl
      · cases pget d "isEmployed" <;> rfl
      · exact optGetD_idem _ _
    · rw [if_neg hc]
      have hcf : ((pget d "isComplete").map JVal.truthy).getD false = false := by
        revert hc
        cases ((pget d "isComplete").map JVal.truthy).getD false <;> simp
      simp only [update_questionnaire, hcf, if_false, Questionnaire.mk.injEq]
      refine ⟨?_, ?_, ?_, ?_, ?_, ?_, ?_, ?_, ?_, ?_, ?_, rfl, rfl⟩
      · exact optGetD_idem _ _
      · exact optGetD_idem _ _
      · cases hb : pget d "dateOfBirth" with
        | none => rfl
        | some v =>
          cases v with
          | str s =>
            dsimp only
            cases strptimeDMY s <;> rfl
          | boolean b => rfl
          | num n => rfl
          | jnull => rfl
      · cases pget d "hasMhcp" <;> rfl
      · exact optGetD_idem _ _
      · exact optGetD_idem _ _
      · exact optGetD_idem _ _
      · cases pget d "isSpiritual" <;> rfl
      · cases pget d "hasTherapyHistory" <;> rfl
      · cases pget d "isEmployed" <;> rfl
      · exact optGetD_idem _ _
  all_goals (intro h; simp [update_questionnaire, h])

/-- C10 witness: the amended statement applied to the empty payload at
instants 0 and 1: the second call changes nothing and absent keys leave
the stored gender unchanged. -/
theorem update_questionnaire_idem_w :
    update_questionnaire (update_questionnaire emptyQuestionnaire [] 0) [] 1 =
      update_questionnaire emptyQuestionnaire [] 0 ∧
    (update_questionnaire emptyQuestionnaire [] 0).gender =
      emptyQuestionnaire.gender :=
  ⟨((update_questionnaire_idem emptyQuestionnaire [] 0 1).1).trans (by decide),
    (update_questionnaire_idem emptyQuestionnaire [] 0 1).2.1 rfl⟩

end Kookaburra
